import Mathlib

/-!
Shallow embedding of the `WeatherParticleSystem` class of
`src/src/main.ts` (lines 96-269).  Real-number arithmetic of the source
(JS doubles) is modelled with exact rationals; the random position drawn
inside the emitter volume on each emission is modelled by an explicit
stream `randPos : ℕ → Vec3` consumed one entry per emission event, and the
camera quaternion copied each frame is an explicit parameter.
-/

namespace Weather

/-- A 3-component vector (mirrors `THREE.Vector3` as used by the system). -/
structure Vec3 where
  x : ℚ
  y : ℚ
  z : ℚ
deriving DecidableEq, Repr

/-- A quaternion (mirrors `THREE.Quaternion`; only copied, never computed with). -/
structure Quat where
  x : ℚ
  y : ℚ
  z : ℚ
  w : ℚ
deriving DecidableEq, Repr

/-- `type WeatherType = 'rain' | 'snow' | 'clear'` (main.ts line 9). -/
inductive WeatherType where
  | rain
  | snow
  | clear
deriving DecidableEq, Repr

/-- `interface ParticleConfig` (main.ts lines 11-19). -/
structure ParticleConfig where
  emissionRate : ℚ
  lifetime : ℚ
  size : ℚ
  speed : ℚ
  windStrength : ℚ
  gravity : ℚ
  type : WeatherType
deriving DecidableEq, Repr

/-- `interface Particle` (main.ts lines 21-29; the optional `isSplash`
field is never set or read by `WeatherParticleSystem` and is omitted). -/
structure Particle where
  position : Vec3
  velocity : Vec3
  life : ℚ
  maxLife : ℚ
  size : ℚ
  active : Bool
deriving DecidableEq, Repr

/-- The particle record pushed for each pool slot in the constructor
(main.ts lines 124-130): zero vectors, zero scalars, inactive. -/
def initParticle : Particle :=
  { position := ⟨0, 0, 0⟩, velocity := ⟨0, 0, 0⟩,
    life := 0, maxLife := 0, size := 0, active := false }

/-- `const maxParticles = 10000` (main.ts line 123). -/
def maxParticles : ℕ := 10000

/-- Velocity given to a freshly emitted particle (main.ts lines 264-265):
rain falls at `-speed`, anything else (snow) at `-speed * 0.5`. -/
def emissionVelocity (cfg : ParticleConfig) : Vec3 :=
  if cfg.type = WeatherType.rain then ⟨0, -cfg.speed, 0⟩
  else ⟨0, -cfg.speed * (1/2), 0⟩

/-- The field mutations `emitParticle` performs on the acquired slot
(main.ts lines 254-265): set `active`, `position`, `life`, `size`,
`velocity`; `maxLife` is left untouched by the source. -/
def emitInto (cfg : ParticleConfig) (pos : Vec3) (p : Particle) : Particle :=
  { p with active := true, position := pos, life := cfg.lifetime,
           size := cfg.size, velocity := emissionVelocity cfg }

/-- `emitParticle` (main.ts lines 250-266): find the first inactive slot
(`this.particles.find(pt => !pt.active)`); if none exists, return with no
change; otherwise overwrite that slot with the fresh particle data. -/
def emitParticle (cfg : ParticleConfig) (pos : Vec3) : List Particle → List Particle
  | [] => []
  | p :: rest =>
      if p.active then p :: emitParticle cfg pos rest
      else emitInto cfg pos p :: rest

/-- `n` successive `emitParticle` calls, consuming positions
`randPos k, randPos (k+1), ...` from the random stream. -/
def emitN (cfg : ParticleConfig) (randPos : ℕ → Vec3) : ℕ → ℕ → List Particle → List Particle
  | 0, _, ps => ps
  | n + 1, k, ps => emitN cfg randPos n (k + 1) (emitParticle cfg (randPos k) ps)

/-- The emission interval `1 / max(1, emissionRate)` is positive for every
rate, which is the division-by-zero guard of main.ts line 209. -/
def interval_pos (r : ℚ) : 0 < 1 / max 1 r :=
  div_pos one_pos (lt_of_lt_of_le one_pos (le_max_left 1 r))

/-- The emission loop of `update` (main.ts lines 210-213):
`while (accumulator >= interval) { emitParticle(); accumulator -= interval }`.
`k` counts emission events performed so far (and indexes the random
stream); the triple returned is (pool, accumulator, event count). -/
def emitLoop (cfg : ParticleConfig) (randPos : ℕ → Vec3) (interval : ℚ)
    (hpos : 0 < interval) (ps : List Particle) (acc : ℚ) (k : ℕ) :
    List Particle × ℚ × ℕ :=
  if h : interval ≤ acc then
    emitLoop cfg randPos interval hpos (emitParticle cfg (randPos k) ps) (acc - interval) (k + 1)
  else
    (ps, acc, k)
termination_by (⌊acc / interval⌋).toNat
decreasing_by
  simp_wf
  have hne : interval ≠ 0 := ne_of_gt hpos
  have h1 : (acc - interval) / interval = acc / interval - 1 := by
    field_simp
  have h2 : ⌊acc / interval - 1⌋ = ⌊acc / interval⌋ - 1 := Int.floor_sub_one _
  have h3 : (1 : ℤ) ≤ ⌊acc / interval⌋ := by
    refine Int.le_floor.mpr ?_
    rw [le_div_iff₀ hpos]
    simpa using h
  rw [h1, h2]
  omega

/-- The mutable state of `WeatherParticleSystem`: the pool, the live
configuration, the emission accumulator (main.ts line 103) and the
instanced mesh's `count` property. -/
structure WeatherParticleSystem where
  particles : List Particle
  config : ParticleConfig
  accumulator : ℚ
  meshCount : ℕ
deriving DecidableEq, Repr

/-- The constructor (main.ts lines 112-138): 10,000 inactive slots,
accumulator 0.  `meshCount` is 10,000 because `THREE.InstancedMesh`
initialises its `count` property to the capacity passed as its third
constructor argument (line 135) and `update` is what later overwrites it. -/
def mkSystem (cfg : ParticleConfig) : WeatherParticleSystem :=
  { particles := List.replicate maxParticles initParticle,
    config := cfg, accumulator := 0, meshCount := maxParticles }

/-- The emission half of `update` (main.ts lines 204-214): when the kind
is `clear` nothing happens at all (the accumulator is not even read);
otherwise `dt` is added to the accumulator and the while-loop runs with
`interval = 1 / max(1, emissionRate)`. -/
def emissionPhase (s : WeatherParticleSystem) (dt : ℚ) (randPos : ℕ → Vec3) :
    List Particle × ℚ × ℕ :=
  if s.config.type = WeatherType.clear then
    (s.particles, s.accumulator, 0)
  else
    emitLoop s.config randPos (1 / max 1 s.config.emissionRate)
      (interval_pos s.config.emissionRate) s.particles (s.accumulator + dt) 0

/-- The per-particle mutations of the update loop body in source order
(main.ts lines 222-226): `life -= dt`; `velocity.y += gravity * dt`;
`velocity.x = windStrength`; `position += velocity * dt` (using the
already-updated velocity). -/
def advanceParticle (cfg : ParticleConfig) (dt : ℚ) (p : Particle) : Particle :=
  let vy := p.velocity.y + cfg.gravity * dt
  let vx := cfg.windStrength
  { p with life := p.life - dt,
           velocity := ⟨vx, vy, p.velocity.z⟩,
           position := ⟨p.position.x + vx * dt,
                        p.position.y + vy * dt,
                        p.position.z + p.velocity.z * dt⟩ }

/-- The deactivation test `p.position.y < 0 || p.life <= 0`
(main.ts line 228), evaluated on the already-advanced particle. -/
def shouldDie (p : Particle) : Bool :=
  decide (p.position.y < 0) || decide (p.life ≤ 0)

/-- The scale written into the instance transform (main.ts lines 235-239):
anisotropic `(size * 0.08, size * 6.0, 1)` when the CURRENT configuration
kind is rain, isotropic `(size, size, 1)` otherwise. -/
def particleScale (cfg : ParticleConfig) (p : Particle) : Vec3 :=
  if cfg.type = WeatherType.rain then ⟨p.size * (2/25), p.size * 6, 1⟩
  else ⟨p.size, p.size, 1⟩

/-- One entry of the instance buffer: what `tempMatrix.compose(position,
quaternion, scale)` is built from before `setMatrixAt` (main.ts line 241). -/
structure InstanceTransform where
  position : Vec3
  rotation : Quat
  scale : Vec3
deriving DecidableEq, Repr

/-- The per-particle pass of `update` (main.ts lines 219-244): skip
inactive slots; advance active ones; deactivate and skip those that die;
otherwise write a transform at buffer index `activeCount` and increment
`activeCount`.  Returns (new pool, indexed writes in order, final
`activeCount`). -/
def runPass (cfg : ParticleConfig) (dt : ℚ) (camQuat : Quat) :
    List Particle → ℕ → List Particle × List (ℕ × InstanceTransform) × ℕ
  | [], n => ([], [], n)
  | p :: rest, n =>
      if p.active = false then
        let r := runPass cfg dt camQuat rest n
        (p :: r.1, r.2.1, r.2.2)
      else
        let q := advanceParticle cfg dt p
        if shouldDie q = true then
          let r := runPass cfg dt camQuat rest n
          ({ q with active := false } :: r.1, r.2.1, r.2.2)
        else
          let r := runPass cfg dt camQuat rest (n + 1)
          (q :: r.1,
           (n, { position := q.position, rotation := camQuat,
                 scale := particleScale cfg q }) :: r.2.1,
           r.2.2)

/-- `update(dt, camera)` (main.ts lines 204-248): emission phase, then the
per-particle pass over the whole pool starting at buffer index 0, then
`particleMesh.count = activeCount`.  Besides the new state we expose the
list of `(bufferIndex, transform)` writes and the number of emission
events of this call, both directly observable effects of the source. -/
def update (s : WeatherParticleSystem) (dt : ℚ) (camQuat : Quat) (randPos : ℕ → Vec3) :
    WeatherParticleSystem × List (ℕ × InstanceTransform) × ℕ :=
  let ep := emissionPhase s dt randPos
  let pass := runPass s.config dt camQuat ep.1 0
  ({ particles := pass.1, config := s.config,
     accumulator := ep.2.1, meshCount := pass.2.2 },
   pass.2.1, ep.2.2)

/-- `getCount()` (main.ts line 268): returns `particleMesh.count`. -/
def getCount (s : WeatherParticleSystem) : ℕ := s.meshCount

/-- Number of pool slots with `active == true`. -/
def countActive (ps : List Particle) : ℕ := (ps.filter fun p => p.active).length

/-- A `Partial<ParticleConfig>` argument of `updateConfig`: each field
optionally present. -/
structure ConfigPatch where
  emissionRate : Option ℚ := none
  lifetime : Option ℚ := none
  size : Option ℚ := none
  speed : Option ℚ := none
  windStrength : Option ℚ := none
  gravity : Option ℚ := none
  type : Option WeatherType := none
deriving DecidableEq, Repr

/-- The `Object.assign(this.config, newConfig)` merge of `updateConfig`
(main.ts line 189): present fields overwrite, absent fields persist; no
value is clamped or otherwise transformed. -/
def mergeConfig (c : ParticleConfig) (patch : ConfigPatch) : ParticleConfig :=
  { emissionRate := patch.emissionRate.getD c.emissionRate,
    lifetime := patch.lifetime.getD c.lifetime,
    size := patch.size.getD c.size,
    speed := patch.speed.getD c.speed,
    windStrength := patch.windStrength.getD c.windStrength,
    gravity := patch.gravity.getD c.gravity,
    type := patch.type.getD c.type }

/-- `updateConfig` (main.ts lines 187-202) as it affects simulation state:
merge the patch into the live configuration.  (The texture/material
regeneration on a kind change is render-only and touches no particle.) -/
def updateConfig (s : WeatherParticleSystem) (patch : ConfigPatch) : WeatherParticleSystem :=
  { s with config := mergeConfig s.config patch }

/-- Derived per-slot description of what the pass does to one pool slot. -/
def stepSlot (cfg : ParticleConfig) (dt : ℚ) (p : Particle) : Particle :=
  if p.active = false then p
  else
    let q := advanceParticle cfg dt p
    if shouldDie q = true then { q with active := false } else q

/-- Derived per-slot description of the transform (if any) the pass
writes for one pool slot. -/
def slotWrite (cfg : ParticleConfig) (dt : ℚ) (camQuat : Quat) (p : Particle) :
    Option InstanceTransform :=
  if p.active = false then none
  else
    let q := advanceParticle cfg dt p
    if shouldDie q = true then none
    else some { position := q.position, rotation := camQuat, scale := particleScale cfg q }

/-- Fold `update` over a list of frame delta-times, totalling the number
of emission events (mirrors repeated `update` calls by the frame loop). -/
def runSim (camQuat : Quat) (randPos : ℕ → Vec3) :
    List ℚ → WeatherParticleSystem → WeatherParticleSystem × ℕ
  | [], s => (s, 0)
  | dt :: dts, s =>
      let r := update s dt camQuat randPos
      let rest := runSim camQuat randPos dts r.1
      (rest.1, r.2.2 + rest.2)

/-! ### Concrete fixtures used by witnesses and counterexamples -/

/-- Identity camera orientation. -/
def qW : Quat := ⟨0, 0, 0, 1⟩

/-- A sample emission position inside the emitter volume
(`[-60,60] × [30,45] × [-60,60]`, main.ts line 116). -/
def posW : Vec3 := ⟨0, 30, 0⟩

/-- A constant random-position stream. -/
def rpW : ℕ → Vec3 := fun _ => posW

/-- A rain configuration (rate 2 for small worked examples). -/
def cfgRainW : ParticleConfig :=
  { emissionRate := 2, lifetime := 2, size := 1, speed := 18,
    windStrength := 1/2, gravity := -49/5, type := WeatherType.rain }

/-- A snow configuration with zero rate, wind and gravity. -/
def cfgSnowW : ParticleConfig :=
  { emissionRate := 0, lifetime := 2, size := 1, speed := 18,
    windStrength := 0, gravity := 0, type := WeatherType.snow }

/-- The startup configuration of the application (main.ts line 691). -/
def cfgClearW : ParticleConfig :=
  { emissionRate := 0, lifetime := 2, size := 4/5, speed := 18,
    windStrength := 1/2, gravity := -49/5, type := WeatherType.clear }

/-- A rain configuration whose lifetime was overwritten with `-1`. -/
def cfgNegW : ParticleConfig :=
  { emissionRate := 5, lifetime := -1, size := 1, speed := 18,
    windStrength := 0, gravity := -49/5, type := WeatherType.rain }

/-- Snow configuration with zero emission rate and a long lifetime. -/
def cfgC7 : ParticleConfig :=
  { emissionRate := 0, lifetime := 100, size := 1, speed := 0,
    windStrength := 0, gravity := 0, type := WeatherType.snow }

/-- A particle that was emitted while the kind was rain (vertical speed
`-18 = -speed`), still alive and well above the ground. -/
def pRainW : Particle :=
  { position := ⟨0, 10, 0⟩, velocity := ⟨0, -18, 0⟩,
    life := 2, maxLife := 0, size := 1, active := true }

/-- A system holding one live rain-emitted particle after the user has
switched the kind to snow. -/
def sC6 : WeatherParticleSystem :=
  { particles := [pRainW], config := cfgSnowW, accumulator := 0, meshCount := 1 }

/-- A one-slot system under the rain configuration with a free slot. -/
def sEmitW : WeatherParticleSystem :=
  { particles := [initParticle], config := cfgRainW, accumulator := 0, meshCount := 1 }

/-! ### Helper lemmas about the emission loop -/

theorem emitLoop_unfold (cfg : ParticleConfig) (randPos : ℕ → Vec3) (interval : ℚ)
    (hpos : 0 < interval) (ps : List Particle) (acc : ℚ) (k : ℕ) :
    emitLoop cfg randPos interval hpos ps acc k =
      if interval ≤ acc then
        emitLoop cfg randPos interval hpos (emitParticle cfg (randPos k) ps)
          (acc - interval) (k + 1)
      else (ps, acc, k) := by
  rw [emitLoop]
  split <;> rfl

/-- Closed form of the while-loop: it runs exactly `⌊acc / interval⌋⁺`
times, each iteration emitting once and subtracting `interval`. -/
theorem emitLoop_spec (cfg : ParticleConfig) (randPos : ℕ → Vec3) (interval : ℚ)
    (hpos : 0 < interval) :
    ∀ (m : ℕ) (ps : List Particle) (acc : ℚ) (k : ℕ),
      (⌊acc / interval⌋).toNat = m →
      emitLoop cfg randPos interval hpos ps acc k =
        (emitN cfg randPos m k ps, acc - (m : ℚ) * interval, k + m) := by
  intro m
  induction m with
  | zero =>
      intro ps acc k hm
      have hlt : ¬ interval ≤ acc := by
        intro hle
        have h1 : (1 : ℤ) ≤ ⌊acc / interval⌋ := by
          refine Int.le_floor.mpr ?_
          rw [le_div_iff₀ hpos]
          simpa using hle
        omega
      rw [emitLoop_unfold, if_neg hlt]
      simp [emitN]
  | succ n ih =>
      intro ps acc k hm
      have h1 : (1 : ℤ) ≤ ⌊acc / interval⌋ := by omega
      have hle : interval ≤ acc := by
        have := Int.le_floor.mp h1
        rw [le_div_iff₀ hpos] at this
        simpa using this
      have hsub : ⌊(acc - interval) / interval⌋ = ⌊acc / interval⌋ - 1 := by
        have hne : interval ≠ 0 := ne_of_gt hpos
        have h2 : (acc - interval) / interval = acc / interval - 1 := by field_simp
        rw [h2, Int.floor_sub_one]
      have hm' : (⌊(acc - interval) / interval⌋).toNat = n := by omega
      rw [emitLoop_unfold, if_pos hle, ih (emitParticle cfg (randPos k) ps) (acc - interval) (k + 1) hm']
      refine congrArg₂ Prod.mk rfl (congrArg₂ Prod.mk ?_ ?_)
      · push_cast
        ring
      · omega

theorem emitParticle_length (cfg : ParticleConfig) (pos : Vec3) :
    ∀ ps : List Particle, (emitParticle cfg pos ps).length = ps.length := by
  intro ps
  induction ps with
  | nil => rfl
  | cons p rest ih =>
      by_cases hp : p.active <;> simp [emitParticle, hp, ih]

theorem emitN_length (cfg : ParticleConfig) (randPos : ℕ → Vec3) :
    ∀ (n k : ℕ) (ps : List Particle), (emitN cfg randPos n k ps).length = ps.length := by
  intro n
  induction n with
  | zero => intro k ps; rfl
  | succ n ih =>
      intro k ps
      rw [emitN, ih, emitParticle_length]

/-- `emitParticle` at each slot: an active slot is untouched; an inactive
slot either stays as it was or becomes the freshly emitted particle. -/
theorem emitParticle_getD (cfg : ParticleConfig) (pos : Vec3) :
    ∀ (ps : List Particle) (j : ℕ),
      ((ps.getD j initParticle).active = true →
        (emitParticle cfg pos ps).getD j initParticle = ps.getD j initParticle) ∧
      ((ps.getD j initParticle).active = false →
        (emitParticle cfg pos ps).getD j initParticle = ps.getD j initParticle ∨
        (emitParticle cfg pos ps).getD j initParticle =
          emitInto cfg pos (ps.getD j initParticle)) := by
  intro ps
  induction ps with
  | nil =>
      intro j
      constructor
      · intro h; rfl
      · intro h; exact Or.inl rfl
  | cons p rest ih =>
      intro j
      by_cases hp : p.active
      · cases j with
        | zero => simp [emitParticle, hp]
        | succ j => simpa [emitParticle, hp] using ih j
      · cases j with
        | zero =>
            constructor
            · intro h
              exact absurd h hp
            · intro h
              right
              simp [emitParticle, hp]
        | succ j => simp [emitParticle, hp]

/-- Slots of the pool across a run of `n` emissions: active slots are
untouched; an inactive slot either stays as it was or was filled by one of
the emissions (with some position from the random stream). -/
theorem emitN_getD (cfg : ParticleConfig) (randPos : ℕ → Vec3) :
    ∀ (n k : ℕ) (ps : List Particle) (j : ℕ),
      ((ps.getD j initParticle).active = true →
        (emitN cfg randPos n k ps).getD j initParticle = ps.getD j initParticle) ∧
      ((ps.getD j initParticle).active = false →
        (emitN cfg randPos n k ps).getD j initParticle = ps.getD j initParticle ∨
        ∃ i, (emitN cfg randPos n k ps).getD j initParticle =
          emitInto cfg (randPos i) (ps.getD j initParticle)) := by
  intro n
  induction n with
  | zero =>
      intro k ps j
      exact ⟨fun _ => rfl, fun _ => Or.inl rfl⟩
  | succ n ih =>
      intro k ps j
      have hone := emitParticle_getD cfg (randPos k) ps j
      have hrec := ih (k + 1) (emitParticle cfg (randPos k) ps) j
      constructor
      · intro hact
        have h1 : (emitParticle cfg (randPos k) ps).getD j initParticle =
            ps.getD j initParticle := hone.1 hact
        rw [emitN]
        rw [hrec.1 (by rw [h1]; exact hact), h1]
      · intro hinact
        rw [emitN]
        rcases hone.2 hinact with h1 | h1
        · rcases hrec.2 (by rw [h1]; exact hinact) with h2 | h2
          · exact Or.inl (by rw [h2, h1])
          · rcases h2 with ⟨i, hi⟩
            exact Or.inr ⟨i, by rw [hi, h1]⟩
        · have hact' : ((emitParticle cfg (randPos k) ps).getD j initParticle).active = true := by
            rw [h1]; rfl
          refine Or.inr ⟨k, ?_⟩
          rw [hrec.1 hact', h1]

/-! ### Helper lemmas about the per-particle pass -/

theorem advanceParticle_active (cfg : ParticleConfig) (dt : ℚ) (p : Particle) :
    (advanceParticle cfg dt p).active = p.active := rfl

theorem runPass_particles (cfg : ParticleConfig) (dt : ℚ) (camQuat : Quat) :
    ∀ (ps : List Particle) (n : ℕ),
      (runPass cfg dt camQuat ps n).1 = ps.map (stepSlot cfg dt) := by
  intro ps
  induction ps with
  | nil => intro n; rfl
  | cons p rest ih =>
      intro n
      by_cases hp : p.active = false
      · simp [runPass, stepSlot, hp, ih n]
      · by_cases hd : shouldDie (advanceParticle cfg dt p) = true
        · simp [runPass, stepSlot, hp, hd, ih n]
        · simp [runPass, stepSlot, hp, hd, ih (n + 1)]

theorem runPass_writes_snd (cfg : ParticleConfig) (dt : ℚ) (camQuat : Quat) :
    ∀ (ps : List Particle) (n : ℕ),
      (runPass cfg dt camQuat ps n).2.1.map Prod.snd =
        ps.filterMap (slotWrite cfg dt camQuat) := by
  intro ps
  induction ps with
  | nil => intro n; rfl
  | cons p rest ih =>
      intro n
      by_cases hp : p.active = false
      · simp [runPass, slotWrite, hp, ih n]
      · by_cases hd : shouldDie (advanceParticle cfg dt p) = true
        · simp [runPass, slotWrite, hp, hd, ih n]
        · simp [runPass, slotWrite, hp, hd, ih (n + 1)]

theorem runPass_writes_fst (cfg : ParticleConfig) (dt : ℚ) (camQuat : Quat) :
    ∀ (ps : List Particle) (n : ℕ),
      (runPass cfg dt camQuat ps n).2.1.map Prod.fst =
        List.range' n (runPass cfg dt camQuat ps n).2.1.length := by
  intro ps
  induction ps with
  | nil => intro n; rfl
  | cons p rest ih =>
      intro n
      by_cases hp : p.active = false
      · simp [runPass, hp, ih n]
      · by_cases hd : shouldDie (advanceParticle cfg dt p) = true
        · simp [runPass, hp, hd, ih n]
        · simp [runPass, hp, hd, ih (n + 1), List.range'_succ]

theorem runPass_counter (cfg : ParticleConfig) (dt : ℚ) (camQuat : Quat) :
    ∀ (ps : List Particle) (n : ℕ),
      (runPass cfg dt camQuat ps n).2.2 = n + (runPass cfg dt camQuat ps n).2.1.length := by
  intro ps
  induction ps with
  | nil => intro n; simp [runPass]
  | cons p rest ih =>
      intro n
      by_cases hp : p.active = false
      · simp [runPass, hp, ih n]
      · by_cases hd : shouldDie (advanceParticle cfg dt p) = true
        · simp [runPass, hp, hd, ih n]
        · simp [runPass, hp, hd, ih (n + 1)]
          omega

/-- A slot survives the pass (is active afterwards) exactly when the pass
writes a transform for it. -/
theorem stepSlot_active_iff_write (cfg : ParticleConfig) (dt : ℚ) (camQuat : Quat)
    (p : Particle) :
    (stepSlot cfg dt p).active = (slotWrite cfg dt camQuat p).isSome := by
  by_cases hp : p.active = false
  · simp [stepSlot, slotWrite, hp]
  · by_cases hd : shouldDie (advanceParticle cfg dt p) = true
    · simp [stepSlot, slotWrite, hp, hd]
    · simp [stepSlot, slotWrite, hp, hd, advanceParticle_active]

theorem countActive_map_stepSlot (cfg : ParticleConfig) (dt : ℚ) (camQuat : Quat) :
    ∀ ps : List Particle,
      countActive (ps.map (stepSlot cfg dt)) =
        (ps.filterMap (slotWrite cfg dt camQuat)).length := by
  intro ps
  induction ps with
  | nil => rfl
  | cons p rest ih =>
      have h := stepSlot_active_iff_write cfg dt camQuat p
      rcases hw : slotWrite cfg dt camQuat p with _ | t
      · rw [hw] at h
        simp only [Option.isSome_none] at h
        simp [countActive, List.filterMap_cons, hw, h] at ih ⊢
        exact ih
      · rw [hw] at h
        simp only [Option.isSome_some] at h
        simp [countActive, List.filterMap_cons, hw, h] at ih ⊢
        exact ih

/-! ### Frame-level lemmas -/

/-- For a non-clear kind the emission half of `update` in closed form:
`⌊(acc + dt) * max(1, rate)⌋⁺` emission events happen, the pool receives
that many `emitParticle` calls, and the accumulator keeps the remainder. -/
theorem emissionPhase_spec (s : WeatherParticleSystem) (dt : ℚ) (randPos : ℕ → Vec3)
    (h : ¬ s.config.type = WeatherType.clear) :
    emissionPhase s dt randPos =
      (emitN s.config randPos
          (⌊(s.accumulator + dt) * max 1 s.config.emissionRate⌋).toNat 0 s.particles,
       (s.accumulator + dt) -
          ((⌊(s.accumulator + dt) * max 1 s.config.emissionRate⌋).toNat : ℚ) *
            (1 / max 1 s.config.emissionRate),
       (⌊(s.accumulator + dt) * max 1 s.config.emissionRate⌋).toNat) := by
  rw [emissionPhase, if_neg h]
  have hdiv : (s.accumulator + dt) / (1 / max 1 s.config.emissionRate) =
      (s.accumulator + dt) * max 1 s.config.emissionRate := by
    rw [one_div, div_inv_eq_mul]
  have := emitLoop_spec s.config randPos (1 / max 1 s.config.emissionRate)
    (interval_pos s.config.emissionRate)
    ((⌊(s.accumulator + dt) * max 1 s.config.emissionRate⌋).toNat)
    s.particles (s.accumulator + dt) 0 (by rw [hdiv])
  rw [this]
  simp

theorem max_one_pos (r : ℚ) : 0 < max 1 r :=
  lt_of_lt_of_le one_pos (le_max_left 1 r)

/-- Remainder bounds: the accumulator left by the emission loop is in
`[0, interval)` whenever the incoming accumulator is nonnegative. -/
theorem remainder_bounds (acc r : ℚ) (hacc : 0 ≤ acc) (hr : 0 < r) :
    0 ≤ acc - ((⌊acc * r⌋).toNat : ℚ) * (1 / r) ∧
      acc - ((⌊acc * r⌋).toNat : ℚ) * (1 / r) < 1 / r := by
  have hfl : (0 : ℤ) ≤ ⌊acc * r⌋ := Int.floor_nonneg.mpr (mul_nonneg hacc (le_of_lt hr))
  have hcast : ((⌊acc * r⌋).toNat : ℚ) = (⌊acc * r⌋ : ℚ) := by
    exact_mod_cast Int.toNat_of_nonneg hfl
  rw [hcast]
  constructor
  · have h1 : (⌊acc * r⌋ : ℚ) ≤ acc * r := Int.floor_le _
    have h2 : (⌊acc * r⌋ : ℚ) * (1 / r) ≤ acc * r * (1 / r) :=
      mul_le_mul_of_nonneg_right h1 (by positivity)
    have h3 : acc * r * (1 / r) = acc := by field_simp
    linarith
  · have h1 : acc * r < (⌊acc * r⌋ : ℚ) + 1 := Int.lt_floor_add_one _
    have h2 : acc * r * (1 / r) < ((⌊acc * r⌋ : ℚ) + 1) * (1 / r) :=
      mul_lt_mul_of_pos_right h1 (by positivity)
    have h3 : acc * r * (1 / r) = acc := by field_simp
    rw [h3, add_mul, one_mul] at h2
    linarith

/-- Total emission events over any sequence of frames depend only on the
SUM of the frame delta-times: starting with an accumulator already in
`[0, interval)`, the total is `⌊(acc + Σ dts) * max(1, rate)⌋⁺`. -/
theorem runSim_spec (camQuat : Quat) (randPos : ℕ → Vec3) :
    ∀ (dts : List ℚ) (s : WeatherParticleSystem),
      ¬ s.config.type = WeatherType.clear →
      0 ≤ s.accumulator →
      s.accumulator < 1 / max 1 s.config.emissionRate →
      (∀ d ∈ dts, 0 ≤ d) →
      (runSim camQuat randPos dts s).2 =
        (⌊(s.accumulator + dts.sum) * max 1 s.config.emissionRate⌋).toNat ∧
      (runSim camQuat randPos dts s).1.config = s.config := by
  intro dts
  induction dts with
  | nil =>
      intro s hclear h0 h1 _
      constructor
      · have hr : 0 < max 1 s.config.emissionRate := max_one_pos _
        have hx0 : 0 ≤ s.accumulator * max 1 s.config.emissionRate :=
          mul_nonneg h0 (le_of_lt hr)
        have hx1 : s.accumulator * max 1 s.config.emissionRate < 1 := by
          calc s.accumulator * max 1 s.config.emissionRate
              < (1 / max 1 s.config.emissionRate) * max 1 s.config.emissionRate :=
                mul_lt_mul_of_pos_right h1 hr
            _ = 1 := by field_simp
        have : ⌊s.accumulator * max 1 s.config.emissionRate⌋ = 0 := by
          rw [Int.floor_eq_zero_iff]
          constructor
          · simpa using hx0
          · simpa using hx1
        simp [runSim, this]
      · rfl
  | cons d dts ih =>
      intro s hclear h0 h1 hd
      have hd0 : 0 ≤ d := hd d (List.mem_cons_self d dts)
      have hdts : ∀ x ∈ dts, 0 ≤ x := fun x hx => hd x (List.mem_cons_of_mem d hx)
      have hr : 0 < max 1 s.config.emissionRate := max_one_pos _
      have hep := emissionPhase_spec s d randPos hclear
      have hupdAcc : (update s d camQuat randPos).1.accumulator =
          (s.accumulator + d) -
            ((⌊(s.accumulator + d) * max 1 s.config.emissionRate⌋).toNat : ℚ) *
              (1 / max 1 s.config.emissionRate) := by
        simp only [update, hep]
      have hupdCfg : (update s d camQuat randPos).1.config = s.config := rfl
      have hupdEmit : (update s d camQuat randPos).2.2 =
          (⌊(s.accumulator + d) * max 1 s.config.emissionRate⌋).toNat := by
        simp only [update, hep]
      have hacc' : 0 ≤ (s.accumulator + d) := by linarith
      have hbnd := remainder_bounds (s.accumulator + d) (max 1 s.config.emissionRate) hacc' hr
      have hIH := ih (update s d camQuat randPos).1
        (by rw [hupdCfg]; exact hclear)
        (by rw [hupdAcc]; exact hbnd.1)
        (by rw [hupdAcc, hupdCfg]; exact hbnd.2)
        hdts
      constructor
      · have hsum : (runSim camQuat randPos (d :: dts) s).2 =
            (update s d camQuat randPos).2.2 +
              (runSim camQuat randPos dts (update s d camQuat randPos).1).2 := rfl
        rw [hsum, hupdEmit, hIH.1, hupdAcc, hupdCfg]
        -- arithmetic: ⌊x⌋⁺ + ⌊(a+d+Σ)r - ⌊x⌋⌋⁺ = ⌊(a+d+Σ)r⌋⁺ with x = (a+d)r
        have hfl : (0 : ℤ) ≤ ⌊(s.accumulator + d) * max 1 s.config.emissionRate⌋ :=
          Int.floor_nonneg.mpr (mul_nonneg hacc' (le_of_lt hr))
        have hcast : ((⌊(s.accumulator + d) * max 1 s.config.emissionRate⌋).toNat : ℚ) =
            ((⌊(s.accumulator + d) * max 1 s.config.emissionRate⌋ : ℤ) : ℚ) := by
          exact_mod_cast Int.toNat_of_nonneg hfl
        have hrne : max 1 s.config.emissionRate ≠ 0 := ne_of_gt hr
        have hinv : (1 / max 1 s.config.emissionRate) * max 1 s.config.emissionRate = 1 :=
          one_div_mul_cancel hrne
        have harg : (s.accumulator + d -
              ((⌊(s.accumulator + d) * max 1 s.config.emissionRate⌋).toNat : ℚ) *
                (1 / max 1 s.config.emissionRate) + dts.sum) * max 1 s.config.emissionRate =
            (s.accumulator + (d + dts.sum)) * max 1 s.config.emissionRate -
              ((⌊(s.accumulator + d) * max 1 s.config.emissionRate⌋ : ℤ) : ℚ) := by
          rw [hcast]
          have hexp : (s.accumulator + d -
                ((⌊(s.accumulator + d) * max 1 s.config.emissionRate⌋ : ℤ) : ℚ) *
                  (1 / max 1 s.config.emissionRate) + dts.sum) * max 1 s.config.emissionRate =
              (s.accumulator + (d + dts.sum)) * max 1 s.config.emissionRate -
                ((⌊(s.accumulator + d) * max 1 s.config.emissionRate⌋ : ℤ) : ℚ) *
                  ((1 / max 1 s.config.emissionRate) * max 1 s.config.emissionRate) := by
            ring
          rw [hexp, hinv, mul_one]
        rw [harg, Int.floor_sub_int]
        have hmono : ⌊(s.accumulator + d) * max 1 s.config.emissionRate⌋ ≤
            ⌊(s.accumulator + (d + dts.sum)) * max 1 s.config.emissionRate⌋ := by
          apply Int.floor_le_floor
          have hsum0 : 0 ≤ dts.sum := List.sum_nonneg hdts
          nlinarith
        have : (List.sum (d :: dts)) = d + dts.sum := rfl
        rw [this]
        omega
      · have : (runSim camQuat randPos (d :: dts) s).1 =
            (runSim camQuat randPos dts (update s d camQuat randPos).1).1 := rfl
        rw [this, hIH.2, hupdCfg]

/-! ### Further combined helpers -/

/-- When every slot is active, `find` fails and `emitParticle` changes
nothing (pool-exhaustion drops the emission silently). -/
theorem emitParticle_allActive (cfg : ParticleConfig) (pos : Vec3) :
    ∀ ps : List Particle, (∀ p ∈ ps, p.active = true) → emitParticle cfg pos ps = ps := by
  intro ps
  induction ps with
  | nil => intro _; rfl
  | cons p rest ih =>
      intro h
      have hp : p.active = true := h p (List.mem_cons_self p rest)
      have hrest := ih fun x hx => h x (List.mem_cons_of_mem p hx)
      simp [emitParticle, hp, hrest]

theorem emissionPhase_length (s : WeatherParticleSystem) (dt : ℚ) (randPos : ℕ → Vec3) :
    (emissionPhase s dt randPos).1.length = s.particles.length := by
  by_cases h : s.config.type = WeatherType.clear
  · rw [emissionPhase, if_pos h]
  · rw [emissionPhase_spec s dt randPos h]
    exact emitN_length s.config randPos _ 0 s.particles

theorem stepSlot_inactive (cfg : ParticleConfig) (dt : ℚ) (p : Particle)
    (h : p.active = false) : stepSlot cfg dt p = p := by
  simp [stepSlot, h]

theorem getD_map_stepSlot (cfg : ParticleConfig) (dt : ℚ) :
    ∀ (ps : List Particle) (j : ℕ),
      (ps.map (stepSlot cfg dt)).getD j initParticle =
        stepSlot cfg dt (ps.getD j initParticle) := by
  intro ps
  induction ps with
  | nil =>
      intro j
      simp [stepSlot_inactive cfg dt initParticle rfl]
  | cons p rest ih =>
      intro j
      cases j with
      | zero => simp
      | succ j => simpa using ih j

/-- After any `update`, the renderable instance count equals the number of
slots left active by that frame's pass. -/
theorem update_count (s : WeatherParticleSystem) (dt : ℚ) (camQuat : Quat)
    (randPos : ℕ → Vec3) :
    getCount (update s dt camQuat randPos).1 =
      countActive (update s dt camQuat randPos).1.particles := by
  have h1 : getCount (update s dt camQuat randPos).1 =
      (runPass s.config dt camQuat (emissionPhase s dt randPos).1 0).2.2 := rfl
  have h2 : (update s dt camQuat randPos).1.particles =
      (runPass s.config dt camQuat (emissionPhase s dt randPos).1 0).1 := rfl
  rw [h1, h2, runPass_counter, runPass_particles,
    countActive_map_stepSlot s.config dt camQuat,
    ← runPass_writes_snd s.config dt camQuat (emissionPhase s dt randPos).1 0,
    List.length_map]
  omega

/-! ### Claim theorems -/

/-- C1: in every `update(dt, camera)` call the transforms are written at
consecutive buffer indices starting at 0, in pool-slot order, their number
equals the number of pool slots with `active == true` at the end of the
frame's lifecycle pass, and `particleMesh.count` is set to exactly that
number. -/
theorem c1_dense_compaction (s : WeatherParticleSystem) (dt : ℚ) (camQuat : Quat)
    (randPos : ℕ → Vec3) :
    (update s dt camQuat randPos).2.1.map Prod.fst =
      List.range (update s dt camQuat randPos).2.1.length ∧
    (update s dt camQuat randPos).2.1.map Prod.snd =
      (emissionPhase s dt randPos).1.filterMap (slotWrite s.config dt camQuat) ∧
    countActive (update s dt camQuat randPos).1.particles =
      (update s dt camQuat randPos).2.1.length ∧
    getCount (update s dt camQuat randPos).1 =
      (update s dt camQuat randPos).2.1.length := by
  have hw : (update s dt camQuat randPos).2.1 =
      (runPass s.config dt camQuat (emissionPhase s dt randPos).1 0).2.1 := rfl
  have hp : (update s dt camQuat randPos).1.particles =
      (runPass s.config dt camQuat (emissionPhase s dt randPos).1 0).1 := rfl
  have hc : getCount (update s dt camQuat randPos).1 =
      (runPass s.config dt camQuat (emissionPhase s dt randPos).1 0).2.2 := rfl
  refine ⟨?_, ?_, ?_, ?_⟩
  · rw [hw, runPass_writes_fst, List.range_eq_range']
  · rw [hw, runPass_writes_snd]
  · rw [hw, hp, runPass_particles, countActive_map_stepSlot s.config dt camQuat,
      ← runPass_writes_snd s.config dt camQuat (emissionPhase s dt randPos).1 0,
      List.length_map]
  · rw [hw, hc, runPass_counter]
    omega

/-- C2: for a non-clear kind the scheduler adds `dt` to the accumulator and
runs the while-loop at interval `1 / max(1, emissionRate)`: exactly
`⌊(acc + dt) / interval⌋⁺` iterations happen, each emitting one particle
(`emitN`) and subtracting one interval, and the loop stops with the
accumulator below the interval; the denominator `max(1, emissionRate)` is
always at least 1, so no division by zero occurs for any rate. -/
theorem c2_emission_scheduler (s : WeatherParticleSystem) (dt : ℚ) (randPos : ℕ → Vec3)
    (h : ¬ s.config.type = WeatherType.clear) :
    (1 : ℚ) ≤ max 1 s.config.emissionRate ∧
    0 < 1 / max 1 s.config.emissionRate ∧
    emissionPhase s dt randPos =
      (emitN s.config randPos
          (⌊(s.accumulator + dt) / (1 / max 1 s.config.emissionRate)⌋).toNat 0 s.particles,
       (s.accumulator + dt) -
          ((⌊(s.accumulator + dt) / (1 / max 1 s.config.emissionRate)⌋).toNat : ℚ) *
            (1 / max 1 s.config.emissionRate),
       (⌊(s.accumulator + dt) / (1 / max 1 s.config.emissionRate)⌋).toNat) ∧
    (0 ≤ s.accumulator + dt →
      0 ≤ (emissionPhase s dt randPos).2.1 ∧
      (emissionPhase s dt randPos).2.1 < 1 / max 1 s.config.emissionRate) := by
  have hdiv : (s.accumulator + dt) / (1 / max 1 s.config.emissionRate) =
      (s.accumulator + dt) * max 1 s.config.emissionRate := by
    rw [one_div, div_inv_eq_mul]
  have hspec := emissionPhase_spec s dt randPos h
  refine ⟨le_max_left 1 _, interval_pos _, ?_, ?_⟩
  · rw [hdiv]
    exact hspec
  · intro hacc
    have hbnd := remainder_bounds (s.accumulator + dt) (max 1 s.config.emissionRate)
      hacc (max_one_pos _)
    have hval : (emissionPhase s dt randPos).2.1 =
        (s.accumulator + dt) -
          ((⌊(s.accumulator + dt) * max 1 s.config.emissionRate⌋).toNat : ℚ) *
            (1 / max 1 s.config.emissionRate) := by
      rw [hspec]
    rw [hval]
    exact ⟨hbnd.1, hbnd.2⟩

/-- Witness for C2 at a concrete rain system. -/
theorem c2_emission_scheduler_witness :
    (1 : ℚ) ≤ max 1 (mkSystem cfgRainW).config.emissionRate :=
  (c2_emission_scheduler (mkSystem cfgRainW) 1 rpW (by decide)).1

/-- C3: the per-particle step of a frame follows the fixed order — age
(`life -= dt`), physics (`velocity.y += gravity*dt`; `velocity.x :=
windStrength`; `position += velocity*dt` with the updated velocity), then
the boundary/lifetime check on the updated values, and only a particle
that survives the check gets a transform; a particle that dies in a frame
is never rendered in that frame. -/
theorem c3_step_order (cfg : ParticleConfig) (dt : ℚ) (camQuat : Quat) (p : Particle)
    (hp : p.active = true) :
    (advanceParticle cfg dt p).life = p.life - dt ∧
    (advanceParticle cfg dt p).velocity.y = p.velocity.y + cfg.gravity * dt ∧
    (advanceParticle cfg dt p).velocity.x = cfg.windStrength ∧
    (advanceParticle cfg dt p).position.x = p.position.x + cfg.windStrength * dt ∧
    (advanceParticle cfg dt p).position.y =
      p.position.y + (p.velocity.y + cfg.gravity * dt) * dt ∧
    shouldDie (advanceParticle cfg dt p) =
      (decide ((advanceParticle cfg dt p).position.y < 0) ||
        decide ((advanceParticle cfg dt p).life ≤ 0)) ∧
    stepSlot cfg dt p =
      (if shouldDie (advanceParticle cfg dt p) = true
        then { advanceParticle cfg dt p with active := false }
        else advanceParticle cfg dt p) ∧
    (shouldDie (advanceParticle cfg dt p) = true →
      slotWrite cfg dt camQuat p = none ∧ (stepSlot cfg dt p).active = false) ∧
    (shouldDie (advanceParticle cfg dt p) = false →
      slotWrite cfg dt camQuat p =
        some { position := (advanceParticle cfg dt p).position, rotation := camQuat,
               scale := particleScale cfg (advanceParticle cfg dt p) }) ∧
    (∀ (ps : List Particle) (n : ℕ),
      (runPass cfg dt camQuat ps n).1 = ps.map (stepSlot cfg dt) ∧
      (runPass cfg dt camQuat ps n).2.1.map Prod.snd =
        ps.filterMap (slotWrite cfg dt camQuat)) := by
  refine ⟨rfl, rfl, rfl, rfl, rfl, rfl, ?_, ?_, ?_, ?_⟩
  · simp [stepSlot, hp]
  · intro hd
    constructor
    · simp [slotWrite, hp, hd]
    · simp [stepSlot, hp, hd]
  · intro hd
    simp [slotWrite, hp, hd]
  · intro ps n
    exact ⟨runPass_particles cfg dt camQuat ps n, runPass_writes_snd cfg dt camQuat ps n⟩

/-- Witness for C3 at a concrete live particle. -/
theorem c3_step_order_witness :
    (advanceParticle cfgRainW (1/60) pRainW).life = pRainW.life - 1/60 :=
  (c3_step_order cfgRainW (1/60) qW pRainW rfl).1

/-- C4: the pool holds exactly 10,000 slots for the simulation's lifetime
(construction, every `update`, every `updateConfig` preserve the slot
count), and an emission requested when no slot is free is silently
dropped: the pool — hence the active count and every existing particle —
is left completely unchanged, and no exception can occur (the model is a
total function). -/
theorem c4_pool_capacity :
    (∀ cfg : ParticleConfig, (mkSystem cfg).particles.length = 10000) ∧
    (∀ (s : WeatherParticleSystem) (dt : ℚ) (camQuat : Quat) (randPos : ℕ → Vec3),
      (update s dt camQuat randPos).1.particles.length = s.particles.length) ∧
    (∀ (s : WeatherParticleSystem) (patch : ConfigPatch),
      (updateConfig s patch).particles = s.particles) ∧
    (∀ (cfg : ParticleConfig) (pos : Vec3) (ps : List Particle),
      (∀ p ∈ ps, p.active = true) →
        emitParticle cfg pos ps = ps ∧
        countActive (emitParticle cfg pos ps) = countActive ps) := by
  refine ⟨?_, ?_, ?_, ?_⟩
  · intro cfg
    show (List.replicate maxParticles initParticle).length = 10000
    rw [List.length_replicate]
    rfl
  · intro s dt camQuat randPos
    have hp : (update s dt camQuat randPos).1.particles =
        (runPass s.config dt camQuat (emissionPhase s dt randPos).1 0).1 := rfl
    rw [hp, runPass_particles, List.length_map, emissionPhase_length]
  · intro s patch
    rfl
  · intro cfg pos ps h
    have he := emitParticle_allActive cfg pos ps h
    exact ⟨he, by rw [he]⟩

/-- Witness for C4's exhaustion branch at a concrete full pool. -/
theorem c4_pool_capacity_witness :
    emitParticle cfgRainW posW [pRainW] = [pRainW] ∧
    countActive (emitParticle cfgRainW posW [pRainW]) = countActive [pRainW] :=
  c4_pool_capacity.2.2.2 cfgRainW posW [pRainW] (by decide)

/-- C5: when the kind is `clear` the emission phase does nothing: no
particle is emitted (zero emission events, and the pass input is the old
pool, in which no inactive slot is touched), and the accumulator is left
exactly unchanged — neither incremented by `dt` nor reset. -/
theorem c5_clear_no_emission (s : WeatherParticleSystem) (dt : ℚ) (camQuat : Quat)
    (randPos : ℕ → Vec3) (h : s.config.type = WeatherType.clear) :
    emissionPhase s dt randPos = (s.particles, s.accumulator, 0) ∧
    (update s dt camQuat randPos).1.accumulator = s.accumulator ∧
    (update s dt camQuat randPos).2.2 = 0 ∧
    (update s dt camQuat randPos).1.particles = s.particles.map (stepSlot s.config dt) ∧
    (∀ p : Particle, p.active = false → stepSlot s.config dt p = p) := by
  have hep : emissionPhase s dt randPos = (s.particles, s.accumulator, 0) := by
    rw [emissionPhase, if_pos h]
  refine ⟨hep, ?_, ?_, ?_, ?_⟩
  · simp only [update, hep]
  · simp only [update, hep]
  · have hp : (update s dt camQuat randPos).1.particles =
        (runPass s.config dt camQuat (emissionPhase s dt randPos).1 0).1 := rfl
    rw [hp, runPass_particles, hep]
  · intro p hpa
    exact stepSlot_inactive s.config dt p hpa

/-- Witness for C5 at the application's startup configuration. -/
theorem c5_clear_no_emission_witness :
    (update (mkSystem cfgClearW) 1 qW rpW).1.accumulator = (mkSystem cfgClearW).accumulator :=
  (c5_clear_no_emission (mkSystem cfgClearW) 1 qW rpW rfl).2.1

/-- C6 counterexample: a particle emitted as rain (velocity `(0,-18,0)`,
i.e. `-speed`) that is still alive after the user switched the kind to
snow is rendered with the isotropic snow scale `(1,1,1)` in the very next
frame, NOT with the rain-shaped scale `(size*0.08, size*6)` the claim says
it retains. -/
theorem c6_counterexample :
    ((update sC6 (1/100) qW rpW).2.1.map fun w => w.2.scale) = [⟨1, 1, 1⟩] ∧
    ¬ ((⟨1, 1, 1⟩ : Vec3) = ⟨1 * (2/25), 1 * 6, 1⟩) := by
  constructor
  · have hep := emissionPhase_spec sC6 (1/100) rpW (by decide)
    have hm : (⌊(sC6.accumulator + 1/100) * max 1 sC6.config.emissionRate⌋).toNat = 0 := by
      norm_num [sC6, cfgSnowW]
    rw [hm] at hep
    have hw : (update sC6 (1/100) qW rpW).2.1 =
        (runPass sC6.config (1/100) qW (emissionPhase sC6 (1/100) rpW).1 0).2.1 := rfl
    rw [hw, hep]
    norm_num [sC6, cfgSnowW, pRainW, emitN, runPass, advanceParticle, shouldDie, particleScale]
    decide
  · norm_num [Vec3.mk.injEq]

/-- C6 (amended): switching the kind to snow changes subsequently emitted
particles' vertical speed to `speed * 0.5` and the scale formula to
isotropic, and it does not touch any stored particle; but the scale
formula is evaluated from the CURRENT kind at render time, so every
transform written while the kind is snow is isotropic — including those of
already-active particles emitted as rain, which therefore do NOT retain
their rain-shaped scale (they only keep their emission-time velocity and
size values). -/
theorem c6_scale_reads_current_kind (cfg : ParticleConfig) (pos : Vec3) (p : Particle)
    (hsnow : cfg.type = WeatherType.snow) :
    (emitInto cfg pos p).velocity = ⟨0, -cfg.speed * (1/2), 0⟩ ∧
    (emitInto cfg pos p).life = cfg.lifetime ∧
    (emitInto cfg pos p).size = cfg.size ∧
    particleScale cfg p = ⟨p.size, p.size, 1⟩ ∧
    (∀ c : ParticleConfig, c.type = WeatherType.rain →
      particleScale c p = ⟨p.size * (2/25), p.size * 6, 1⟩) ∧
    (∀ (s : WeatherParticleSystem) (patch : ConfigPatch),
      (updateConfig s patch).particles = s.particles) ∧
    (∀ (s : WeatherParticleSystem) (dt : ℚ) (camQuat : Quat) (randPos : ℕ → Vec3),
      s.config = cfg →
      ∀ w ∈ (update s dt camQuat randPos).2.1,
        w.2.scale = ⟨w.2.scale.x, w.2.scale.x, 1⟩) := by
  refine ⟨?_, rfl, rfl, ?_, ?_, ?_, ?_⟩
  · simp [emitInto, emissionVelocity, hsnow]
  · simp [particleScale, hsnow]
  · intro c hc
    simp [particleScale, hc]
  · intro s patch
    rfl
  · intro s dt camQuat randPos hc w hw
    have hmem : w.2 ∈ (update s dt camQuat randPos).2.1.map Prod.snd :=
      List.mem_map_of_mem Prod.snd hw
    have hws : (update s dt camQuat randPos).2.1.map Prod.snd =
        (emissionPhase s dt randPos).1.filterMap (slotWrite s.config dt camQuat) := by
      have hw0 : (update s dt camQuat randPos).2.1 =
          (runPass s.config dt camQuat (emissionPhase s dt randPos).1 0).2.1 := rfl
      rw [hw0, runPass_writes_snd]
    rw [hws] at hmem
    rcases List.mem_filterMap.mp hmem with ⟨a, _, ha⟩
    by_cases hact : a.active = false
    · simp [slotWrite, hact] at ha
    · by_cases hdie : shouldDie (advanceParticle s.config dt a) = true
      · simp [slotWrite, hact, hdie] at ha
      · simp only [slotWrite, if_neg hact, if_neg hdie, Option.some.injEq] at ha
        rw [← ha]
        simp [particleScale, hc, hsnow]

/-- Witness for C6's amended claim at a concrete snow configuration. -/
theorem c6_scale_reads_current_kind_witness :
    (emitInto cfgSnowW posW initParticle).velocity = ⟨0, -cfgSnowW.speed * (1/2), 0⟩ :=
  (c6_scale_reads_current_kind cfgSnowW posW initParticle rfl).1

/-- C7 counterexample: with `emissionRate = 0` and kind snow, 21 frames of
`dt = 0.1` (total simulated time `T = 2.1 s`, every step at most 0.1 s)
from a fresh system produce 2 emission events, while the claim's
prediction `R * T = 0` is off by 2 — more than one emission interval's
worth of error.  The guard `max(1, emissionRate)` makes the effective
rate 1, not `R`, whenever `R < 1`. -/
theorem c7_counterexample :
    (runSim qW rpW (List.replicate 21 (1/10)) (mkSystem cfgC7)).2 = 2 ∧
    cfgC7.emissionRate * (List.replicate 21 ((1:ℚ)/10)).sum = 0 ∧
    ¬ (|((runSim qW rpW (List.replicate 21 (1/10)) (mkSystem cfgC7)).2 : ℚ) -
        cfgC7.emissionRate * (List.replicate 21 ((1:ℚ)/10)).sum| ≤ 1) := by
  have hsum : (List.replicate 21 ((1:ℚ)/10)).sum = 21/10 := by
    rw [List.sum_replicate]
    norm_num
  have htot : (runSim qW rpW (List.replicate 21 (1/10)) (mkSystem cfgC7)).2 = 2 := by
    have h := (runSim_spec qW rpW (List.replicate 21 (1/10)) (mkSystem cfgC7)
      (by decide)
      (le_refl 0)
      (interval_pos _)
      (by
        intro d hd
        rw [List.eq_of_mem_replicate hd]
        norm_num)).1
    rw [h, hsum]
    norm_num [mkSystem, cfgC7]
    decide
  refine ⟨htot, ?_, ?_⟩
  · rw [hsum]
    norm_num [cfgC7]
  · rw [htot, hsum]
    norm_num [cfgC7]

/-- C7 (amended): for every configuration with `emissionRate ≥ 1` and kind
not clear, the total number of emission events over any sequence of update
steps (each `dt` nonnegative and at most 0.1 s) from a fresh system equals
`⌊R * T⌋` where `T` is the SUM of the steps — independent of how `T` is
divided — and is therefore within one emission event of `R * T`.  For
`R < 1` the guard `max(1, R)` makes the effective rate 1 and the original
claim fails (see the counterexample). -/
theorem c7_rate_linearity (cfg : ParticleConfig) (camQuat : Quat) (randPos : ℕ → Vec3)
    (dts : List ℚ) (hclear : ¬ cfg.type = WeatherType.clear)
    (hR : 1 ≤ cfg.emissionRate) (hdts : ∀ d ∈ dts, 0 ≤ d ∧ d ≤ 1/10) :
    (runSim camQuat randPos dts (mkSystem cfg)).2 =
      (⌊cfg.emissionRate * dts.sum⌋).toNat ∧
    |((runSim camQuat randPos dts (mkSystem cfg)).2 : ℚ) -
      cfg.emissionRate * dts.sum| ≤ 1 := by
  have hmax : max 1 cfg.emissionRate = cfg.emissionRate := max_eq_right hR
  have h := (runSim_spec camQuat randPos dts (mkSystem cfg)
    hclear (le_refl 0) (interval_pos _) (fun d hd => (hdts d hd).1)).1
  have hcfg : (mkSystem cfg).config = cfg := rfl
  have hacc : (mkSystem cfg).accumulator = 0 := rfl
  rw [hcfg, hacc, hmax, zero_add] at h
  have htot : (runSim camQuat randPos dts (mkSystem cfg)).2 =
      (⌊cfg.emissionRate * dts.sum⌋).toNat := by
    rw [h, mul_comm]
  refine ⟨htot, ?_⟩
  have hS : 0 ≤ dts.sum := List.sum_nonneg fun d hd => (hdts d hd).1
  have hx : 0 ≤ cfg.emissionRate * dts.sum :=
    mul_nonneg (le_trans zero_le_one hR) hS
  have hfl : (0 : ℤ) ≤ ⌊cfg.emissionRate * dts.sum⌋ := Int.floor_nonneg.mpr hx
  have hcast : (((⌊cfg.emissionRate * dts.sum⌋).toNat : ℕ) : ℚ) =
      ((⌊cfg.emissionRate * dts.sum⌋ : ℤ) : ℚ) := by
    exact_mod_cast Int.toNat_of_nonneg hfl
  rw [htot, hcast]
  have h1 : ((⌊cfg.emissionRate * dts.sum⌋ : ℤ) : ℚ) ≤ cfg.emissionRate * dts.sum :=
    Int.floor_le _
  have h2 : cfg.emissionRate * dts.sum < ((⌊cfg.emissionRate * dts.sum⌋ : ℤ) : ℚ) + 1 :=
    Int.lt_floor_add_one _
  rw [abs_le]
  constructor <;> linarith

/-- Witness for C7's amended claim: rate 2 over steps `0.1 + 0.05`. -/
theorem c7_rate_linearity_witness :
    (runSim qW rpW [1/10, 1/20] (mkSystem cfgRainW)).2 =
      (⌊cfgRainW.emissionRate * ([1/10, 1/20] : List ℚ).sum⌋).toNat :=
  (c7_rate_linearity cfgRainW qW rpW [1/10, 1/20] (by decide) (by norm_num [cfgRainW])
    (by
      intro d hd
      simp only [List.mem_cons, List.not_mem_nil, or_false] at hd
      rcases hd with h | h <;> subst h <;> norm_num)).1

/-- C8 counterexample: `updateConfig` stores negative values verbatim — a
patch with `lifetime = -1` leaves `-1` in the configuration and every
subsequently emitted particle receives remaining life `-1`; a patch with
`emissionRate = -5` stores `-5`.  Nothing is clamped to zero/minimum. -/
theorem c8_counterexample :
    (mergeConfig cfgRainW { lifetime := some (-1) }).lifetime = -1 ∧
    (mergeConfig cfgRainW { emissionRate := some (-5) }).emissionRate = -5 ∧
    (emitInto (mergeConfig cfgRainW { lifetime := some (-1) }) posW initParticle).life = -1 ∧
    ¬ (0 ≤ (mergeConfig cfgRainW { lifetime := some (-1) }).lifetime) := by
  refine ⟨rfl, rfl, rfl, ?_⟩
  norm_num [mergeConfig, cfgRainW]

/-- C8 (amended): `updateConfig` merges supplied values unmodified, with no
clamping, so negative `emissionRate` or `lifetime` values are stored and
propagated; the only guard is `max(1, emissionRate)` at the interval
computation (which also keeps the interval positive), and a particle
emitted under a negative lifetime starts with negative remaining life and
is deactivated by the lifetime check on its first update step. -/
theorem c8_merge_no_clamp (c : ParticleConfig) (v : ℚ) (cfg2 : ParticleConfig)
    (pos : Vec3) (p : Particle) (dt : ℚ)
    (hneg : cfg2.lifetime < 0) (hdt : 0 ≤ dt) :
    (mergeConfig c { lifetime := some v }).lifetime = v ∧
    (mergeConfig c { emissionRate := some v }).emissionRate = v ∧
    (1 : ℚ) ≤ max 1 cfg2.emissionRate ∧
    0 < 1 / max 1 cfg2.emissionRate ∧
    (emitInto cfg2 pos p).life = cfg2.lifetime ∧
    shouldDie (advanceParticle cfg2 dt (emitInto cfg2 pos p)) = true ∧
    (stepSlot cfg2 dt (emitInto cfg2 pos p)).active = false := by
  have hlife : (advanceParticle cfg2 dt (emitInto cfg2 pos p)).life =
      cfg2.lifetime - dt := rfl
  have hdie : shouldDie (advanceParticle cfg2 dt (emitInto cfg2 pos p)) = true := by
    simp only [shouldDie, Bool.or_eq_true, decide_eq_true_eq]
    right
    rw [hlife]
    linarith
  refine ⟨rfl, rfl, le_max_left 1 _, interval_pos _, rfl, hdie, ?_⟩
  have hact : (emitInto cfg2 pos p).active = true := rfl
  simp [stepSlot, hact, hdie]

/-- Witness for C8's amended claim: a particle emitted with lifetime `-1`
is dead after one 1/60 s step. -/
theorem c8_merge_no_clamp_witness :
    (stepSlot cfgNegW (1/60) (emitInto cfgNegW posW initParticle)).active = false :=
  (c8_merge_no_clamp cfgRainW 3 cfgNegW posW initParticle (1/60)
    (by norm_num [cfgNegW]) (by norm_num)).2.2.2.2.2.2

/-- C9: immediately after construction `getCount()` returns 10,000 (the
instanced mesh's initial count) although zero pool slots are active, so it
differs from the active count; after any `update` call it equals the
active-particle count. -/
theorem c9_initial_mesh_count (cfg : ParticleConfig) :
    getCount (mkSystem cfg) = 10000 ∧
    countActive (mkSystem cfg).particles = 0 ∧
    ¬ getCount (mkSystem cfg) = countActive (mkSystem cfg).particles ∧
    (∀ (s : WeatherParticleSystem) (dt : ℚ) (camQuat : Quat) (randPos : ℕ → Vec3),
      getCount (update s dt camQuat randPos).1 =
        countActive (update s dt camQuat randPos).1.particles) := by
  have hzero : countActive (mkSystem cfg).particles = 0 := by
    show (List.filter (fun p => p.active) (List.replicate maxParticles initParticle)).length = 0
    rw [List.filter_replicate]
    simp [initParticle]
  refine ⟨rfl, hzero, ?_, ?_⟩
  · rw [hzero]
    show ¬ (10000 = 0)
    omega
  · intro s dt camQuat randPos
    exact update_count s dt camQuat randPos

/-- C10: every particle emitted during an `update` call enters that same
call's per-particle pass: the post-emission pool is what the pass maps
over (so the fresh particle is aged by the full frame `dt`, integrated and
checked), a freshly filled slot carries full lifetime, configured size and
the kind's emission velocity into the pass, and its processed value is
`stepSlot` of the emitted particle — emission is never deferred to the
next frame. -/
theorem c10_emitted_processed_same_frame (s : WeatherParticleSystem) (dt : ℚ)
    (camQuat : Quat) (randPos : ℕ → Vec3) (h : ¬ s.config.type = WeatherType.clear) :
    (update s dt camQuat randPos).1.particles =
      (emissionPhase s dt randPos).1.map (stepSlot s.config dt) ∧
    (update s dt camQuat randPos).2.1.map Prod.snd =
      (emissionPhase s dt randPos).1.filterMap (slotWrite s.config dt camQuat) ∧
    (∀ j : ℕ,
      (s.particles.getD j initParticle).active = false →
      ((emissionPhase s dt randPos).1.getD j initParticle).active = true →
      ((emissionPhase s dt randPos).1.getD j initParticle).life = s.config.lifetime ∧
      ((emissionPhase s dt randPos).1.getD j initParticle).size = s.config.size ∧
      ((emissionPhase s dt randPos).1.getD j initParticle).velocity =
        emissionVelocity s.config ∧
      (update s dt camQuat randPos).1.particles.getD j initParticle =
        stepSlot s.config dt ((emissionPhase s dt randPos).1.getD j initParticle)) := by
  have hp : (update s dt camQuat randPos).1.particles =
      (runPass s.config dt camQuat (emissionPhase s dt randPos).1 0).1 := rfl
  have hmap : (update s dt camQuat randPos).1.particles =
      (emissionPhase s dt randPos).1.map (stepSlot s.config dt) := by
    rw [hp, runPass_particles]
  have hws : (update s dt camQuat randPos).2.1.map Prod.snd =
      (emissionPhase s dt randPos).1.filterMap (slotWrite s.config dt camQuat) := by
    have hw0 : (update s dt camQuat randPos).2.1 =
        (runPass s.config dt camQuat (emissionPhase s dt randPos).1 0).2.1 := rfl
    rw [hw0, runPass_writes_snd]
  refine ⟨hmap, hws, ?_⟩
  intro j hfree hact
  have hspec := emissionPhase_spec s dt randPos h
  have hpool : (emissionPhase s dt randPos).1 =
      emitN s.config randPos
        (⌊(s.accumulator + dt) * max 1 s.config.emissionRate⌋).toNat 0 s.particles := by
    rw [hspec]
  have hget := emitN_getD s.config randPos
    (⌊(s.accumulator + dt) * max 1 s.config.emissionRate⌋).toNat 0 s.particles j
  rcases hget.2 hfree with heq | ⟨i, heq⟩
  · rw [hpool, heq] at hact
    rw [hact] at hfree
    cases hfree
  · rw [hpool, heq]
    refine ⟨rfl, rfl, rfl, ?_⟩
    rw [hmap, getD_map_stepSlot, hpool, heq]

/-- Witness for C10: the one free slot of a concrete rain system is filled
and carries the configured lifetime into the same frame's pass. -/
theorem c10_emitted_processed_same_frame_witness :
    ((emissionPhase sEmitW 1 rpW).1.getD 0 initParticle).life = sEmitW.config.lifetime := by
  have hspec := emissionPhase_spec sEmitW 1 rpW (by decide)
  have hm : (⌊(sEmitW.accumulator + 1) * max 1 sEmitW.config.emissionRate⌋).toNat = 2 := by
    norm_num [sEmitW, cfgRainW]
    decide
  rw [hm] at hspec
  have hpool : (emissionPhase sEmitW 1 rpW).1 = emitN sEmitW.config rpW 2 0 sEmitW.particles := by
    rw [hspec]
  have hact : ((emissionPhase sEmitW 1 rpW).1.getD 0 initParticle).active = true := by
    rw [hpool]
    rfl
  exact (c10_emitted_processed_same_frame sEmitW 1 qW rpW (by decide) |>.2.2 0 rfl hact).1

end Weather
